import Mathlib

/-!
Shallow embedding of the loyalty transaction engine from the repository:
tier classification (src/g7/types.ts, tierUtils), discount eligibility,
bill computation and the transaction state transition
(src/components/Dashboard.tsx).

JavaScript numbers are modelled by the rationals.  The result of parseFloat
on a form field is modelled as an Option of a rational: none stands for NaN
(the string was missing or non-numeric), some v for the parsed value.  The
JavaScript idiom parseFloat(x) || 0 therefore becomes Option.getD 0, and a
bare comparison parseFloat(x) < y (whose result is false when the parse
yields NaN) becomes the function jsLt below.
-/

/-- The four loyalty tiers, in increasing order (type Tier of src/g7/types.ts). -/
inductive Tier where
  | Bronze
  | Silver
  | Gold
  | Platinum
deriving DecidableEq, Repr

/-- Rank of a tier: Bronze 0, Silver 1, Gold 2, Platinum 3. -/
def Tier.toNat : Tier → Nat
  | .Bronze => 0
  | .Silver => 1
  | .Gold => 2
  | .Platinum => 3

instance : LE Tier := ⟨fun a b => a.toNat ≤ b.toNat⟩

instance : LT Tier := ⟨fun a b => a.toNat < b.toNat⟩

instance (a b : Tier) : Decidable (a ≤ b) :=
  inferInstanceAs (Decidable (a.toNat ≤ b.toNat))

instance (a b : Tier) : Decidable (a < b) :=
  inferInstanceAs (Decidable (a.toNat < b.toNat))

/-- The larger of two tiers in the Bronze < Silver < Gold < Platinum order. -/
def Tier.max (a b : Tier) : Tier := if a.toNat ≤ b.toNat then b else a

/-- interface TransactionHistory of src/g7/types.ts.  Dates are modelled as
integer millisecond timestamps (the value of new Date(s).getTime()). -/
structure TransactionHistory where
  date : ℤ
  bill : ℚ
  discountPercentage : Option ℚ
  finalBill : ℚ
  pointsUsed : ℚ
  points : ℚ
deriving DecidableEq, Repr

/-- interface Customer of src/g7/types.ts. -/
structure Customer where
  mobile : String
  name : String
  pin : String
  points : ℚ
  totalSpent : ℚ
  history : List TransactionHistory
deriving DecidableEq, Repr

/-- interface TierThreshold of src/g7/types.ts. -/
structure TierThreshold where
  minSpend : ℚ
  minPoints : ℚ
deriving DecidableEq, Repr

/-- interface TierSettings of src/g7/types.ts. -/
structure TierSettings where
  bronze : TierThreshold
  silver : TierThreshold
  gold : TierThreshold
  platinum : TierThreshold
deriving DecidableEq, Repr

/-- interface DiscountSettings of src/g7/types.ts: per-tier percentage. -/
structure DiscountSettings where
  bronze : ℚ
  silver : ℚ
  gold : ℚ
  platinum : ℚ
deriving DecidableEq, Repr

/-- interface DeadlineSettings of src/g7/types.ts: per-tier number of days. -/
structure DeadlineSettings where
  bronze : ℚ
  silver : ℚ
  gold : ℚ
  platinum : ℚ
deriving DecidableEq, Repr

/-- The lookup discountSettings[tier.toLowerCase()] of Dashboard.tsx. -/
def DiscountSettings.forTier (d : DiscountSettings) : Tier → ℚ
  | .Bronze => d.bronze
  | .Silver => d.silver
  | .Gold => d.gold
  | .Platinum => d.platinum

/-- The lookup deadlineSettings[tier.toLowerCase()] of Dashboard.tsx. -/
def DeadlineSettings.forTier (d : DeadlineSettings) : Tier → ℚ
  | .Bronze => d.bronze
  | .Silver => d.silver
  | .Gold => d.gold
  | .Platinum => d.platinum

/-- getTierBySpend of src/utils/tierUtils (shipped alongside src/g7/types.ts). -/
def getTierBySpend (customer : Customer) (settings : TierSettings) : Tier :=
  if customer.totalSpent ≥ settings.platinum.minSpend then .Platinum
  else if customer.totalSpent ≥ settings.gold.minSpend then .Gold
  else if customer.totalSpent ≥ settings.silver.minSpend then .Silver
  else .Bronze

/-- getTierByPoints of src/utils/tierUtils. -/
def getTierByPoints (customer : Customer) (settings : TierSettings) : Tier :=
  if customer.points ≥ settings.platinum.minPoints then .Platinum
  else if customer.points ≥ settings.gold.minPoints then .Gold
  else if customer.points ≥ settings.silver.minPoints then .Silver
  else .Bronze

/-- getCustomerTier of src/utils/tierUtils: the effective tier, scanning from
Platinum down, a tier qualifying when either the spend or the points
threshold is met. -/
def getCustomerTier (customer : Customer) (settings : TierSettings) : Tier :=
  if customer.totalSpent ≥ settings.platinum.minSpend ∨ customer.points ≥ settings.platinum.minPoints then .Platinum
  else if customer.totalSpent ≥ settings.gold.minSpend ∨ customer.points ≥ settings.gold.minPoints then .Gold
  else if customer.totalSpent ≥ settings.silver.minSpend ∨ customer.points ≥ settings.silver.minPoints then .Silver
  else .Bronze

/-- Result shape of checkDiscountEligibility in Dashboard.tsx. -/
structure EligibilityResult where
  eligible : Bool
  daysSinceLastTxn : Option ℤ
  deadline : Option ℚ
  pointsTier : Option Tier
deriving DecidableEq, Repr

/-- Milliseconds in a day, the divisor 1000 * 60 * 60 * 24 of Dashboard.tsx. -/
def msPerDay : ℚ := 1000 * 60 * 60 * 24

/-- checkDiscountEligibility of Dashboard.tsx.  The parameter now is the
current time in milliseconds (today.getTime()).  The reduce over history
keeps the entry whose date is strictly larger than the running one. -/
def checkDiscountEligibility (customer : Customer) (deadlineSettings : DeadlineSettings)
    (tierSettings : TierSettings) (now : ℤ) : EligibilityResult :=
  match customer.history with
  | [] => ⟨true, none, none, none⟩
  | h :: rest =>
    let lastTransaction := rest.foldl (fun latest tx => if latest.date < tx.date then tx else latest) h
    let daysSinceLastTxn : ℤ := ⌊(((now - lastTransaction.date : ℤ) : ℚ) / msPerDay)⌋
    let pointsTier := getTierByPoints customer tierSettings
    let deadline := deadlineSettings.forTier pointsTier
    ⟨decide ((daysSinceLastTxn : ℚ) ≤ deadline), some daysSinceLastTxn, some deadline, some pointsTier⟩

/-- The maximum date occurring in the nonempty history h :: rest, written as a
fold of the binary maximum; used to state what the reduce in
checkDiscountEligibility selects. -/
def maxHistDate (h : TransactionHistory) (rest : List TransactionHistory) : ℤ :=
  rest.foldl (fun m tx => Max.max m tx.date) h.date

/-- The idiom parseFloat(x) || 0 of Dashboard.tsx: a missing or non-numeric
input (a NaN parse, modelled none) falls back to zero. -/
def jsOrZero (x : Option ℚ) : ℚ := x.getD 0

/-- A bare JavaScript comparison parseFloat(x) < y: when the parse is NaN
(modelled none) the comparison yields false. -/
def jsLt (x : Option ℚ) (y : ℚ) : Bool :=
  match x with
  | none => false
  | some v => decide (v < y)

/-- The tierInfo useMemo of Dashboard.tsx: spend, points and effective tier
of the current customer, null when no customer is loaded. -/
structure TierInfo where
  spendTier : Tier
  pointsTier : Tier
  effectiveTier : Tier
deriving DecidableEq, Repr

/-- Builds the tierInfo record for a known customer (Dashboard.tsx tierInfo
useMemo, some-customer case). -/
def mkTierInfo (c : Customer) (settings : TierSettings) : TierInfo :=
  ⟨getTierBySpend c settings, getTierByPoints c settings, getCustomerTier c settings⟩

/-- The record returned by the billDetails useMemo of Dashboard.tsx. -/
structure BillDetails where
  subtotal : ℚ
  discountPercentage : ℚ
  discountAmount : ℚ
  finalBill : ℚ
  pointsUsed : ℚ
  cashPayable : ℚ
  pointsEarned : ℚ
deriving DecidableEq, Repr

/-- The raw form inputs feeding the billDetails useMemo: the three numeric
text fields (as parse results, none for a NaN parse) and the redeem
checkbox. -/
structure BillInputs where
  billAmount : Option ℚ
  cashGiven : Option ℚ
  pointsToUse : Option ℚ
  usePointsAndDiscount : Bool
deriving DecidableEq, Repr

/-- The billDetails useMemo of Dashboard.tsx.  tierInfo is inlined as
mkTierInfo of the same currentCustomer, exactly how the adjacent useMemo
wires it (tierInfo is null precisely when currentCustomer is null).  The
lookup discountSettings[...] || 0 collapses to the plain lookup, since the
settings record is total and x || 0 = x for numbers other than 0. -/
def billDetails (inp : BillInputs) (currentCustomer : Option Customer)
    (discountSettings : DiscountSettings) (tierSettings : TierSettings)
    (eligibility : EligibilityResult) : BillDetails :=
  let subtotal := jsOrZero inp.billAmount
  let dpda : ℚ × ℚ :=
    match currentCustomer with
    | some c =>
      if inp.usePointsAndDiscount && eligibility.eligible && decide (subtotal > 0) then
        let ti := mkTierInfo c tierSettings
        let dp := discountSettings.forTier ti.effectiveTier
        (dp, subtotal * (dp / 100))
      else (0, 0)
    | none => (0, 0)
  let discountPercentage := dpda.1
  let discountAmount := dpda.2
  let finalBill := subtotal - discountAmount
  let pointsUsed : ℚ :=
    match currentCustomer with
    | some c =>
      if inp.usePointsAndDiscount && decide (c.points > 0) then
        let desiredPoints := jsOrZero inp.pointsToUse
        Min.min c.points (Min.min finalBill desiredPoints)
      else 0
    | none => 0
  let cashPayable := finalBill - pointsUsed
  let cash := jsOrZero inp.cashGiven
  let pointsEarned : ℚ := ((Max.max 0 ⌊cash - cashPayable⌋ : ℤ) : ℚ)
  ⟨subtotal, discountPercentage, discountAmount, finalBill, pointsUsed, cashPayable, pointsEarned⟩

/-- The component state that handleTransactionSubmit of Dashboard.tsx reads:
the customer collection, the form fields, the looked-up customer with its
eligibility snapshot, the settings, and the clock (new Date, milliseconds). -/
structure TxnState where
  customers : List Customer
  countryCode : String
  mobile : String
  name : String
  pin : String
  inputs : BillInputs
  currentCustomer : Option Customer
  isNewCustomer : Bool
  eligibility : EligibilityResult
  tierSettings : TierSettings
  discountSettings : DiscountSettings
  deadlineSettings : DeadlineSettings
  now : ℤ
deriving Repr

/-- The billDetails value in effect at submission time for a state. -/
def stBill (st : TxnState) : BillDetails :=
  billDetails st.inputs st.currentCustomer st.discountSettings st.tierSettings st.eligibility

/-- targetMobile of handleTransactionSubmit: the stored mobile of the loaded
customer, or countryCode concatenated with the typed mobile for a new one. -/
def targetMobile (st : TxnState) : String :=
  match st.currentCustomer with
  | some c => c.mobile
  | none => st.countryCode ++ st.mobile

/-- newHistoryEntry of handleTransactionSubmit: the entry records the
computed discount percentage and points used only when the redeem checkbox
was on and eligibility held; otherwise undefined and 0 respectively. -/
def mkHistoryEntry (st : TxnState) (bd : BillDetails) : TransactionHistory :=
  { date := st.now,
    bill := bd.subtotal,
    discountPercentage :=
      if st.inputs.usePointsAndDiscount && st.eligibility.eligible then some bd.discountPercentage else none,
    finalBill := bd.finalBill,
    pointsUsed :=
      if st.inputs.usePointsAndDiscount && st.eligibility.eligible then bd.pointsUsed else 0,
    points := bd.pointsEarned }

/-- The fields of lastTransactionDetails that the submit handler publishes
for the notification step. -/
structure TxnDetails where
  mobile : String
  customerName : String
  finalBill : ℚ
  pointsUsed : ℚ
  pointsEarned : ℚ
  newTotalPoints : ℚ
  deadlineDays : Option ℚ
deriving DecidableEq, Repr

/-- Outcome of handleTransactionSubmit: either an alert fired and nothing
changed, or the collection was replaced and details were published. -/
inductive SubmitOutcome where
  | rejected
  | committed (customers : List Customer) (details : TxnDetails)
deriving DecidableEq, Repr

/-- The updated-customer map body of handleTransactionSubmit (existing
customer branch): customers with a different mobile pass through, matches
get points, totalSpent and history updated in place. -/
def updateCustomer (st : TxnState) (bd : BillDetails) (entry : TransactionHistory)
    (c : Customer) : Customer :=
  if c.mobile ≠ targetMobile st then c
  else { c with
      points := c.points - bd.pointsUsed + bd.pointsEarned,
      totalSpent := c.totalSpent + bd.finalBill,
      history := c.history ++ [entry] }

/-- The name published by the submit handler: the typed name with a Guest
fallback when empty (name with a falsy check). -/
def guestName (st : TxnState) : String :=
  if st.name = "" then "Guest" else st.name

/-- The newCustomer record built by handleTransactionSubmit for a new mobile
number: points are the points earned, totalSpent the final bill, history the
single new entry. -/
def newCustomerOf (st : TxnState) (bd : BillDetails) (entry : TransactionHistory) : Customer :=
  { mobile := targetMobile st,
    name := guestName st,
    pin := st.pin,
    points := bd.pointsEarned,
    totalSpent := bd.finalBill,
    history := [entry] }

/-- newTotalPoints in the existing-customer branch: the mutable captured by
the map closure, i.e. the updated points of the last customer whose mobile
matches, 0 when none matches. -/
def newTotalPointsExisting (st : TxnState) (bd : BillDetails) : ℚ :=
  st.customers.foldl
    (fun acc c => if c.mobile ≠ targetMobile st then acc
      else c.points - bd.pointsUsed + bd.pointsEarned) 0

/-- deadlineDays in the existing-customer branch: with prior eligibility data
the remaining window max 0 (deadline - daysSince); otherwise, for a loaded
customer, the deadline of the points tier at the post-transaction balance;
null when neither applies. -/
def deadlineDaysExisting (st : TxnState) (bd : BillDetails) : Option ℚ :=
  match st.eligibility.deadline, st.eligibility.daysSinceLastTxn with
  | some d, some days => some (Max.max 0 (d - (days : ℚ)))
  | _, _ =>
    match st.currentCustomer with
    | some c =>
      some (st.deadlineSettings.forTier
        (getTierByPoints { c with points := newTotalPointsExisting st bd } st.tierSettings))
    | none => none

/-- handleTransactionSubmit of Dashboard.tsx.  Validation: the subtotal must
be truthy and positive, and cash (the bare parseFloat of the cash field,
no fallback) must not compare less than cashPayable — when that parse is
NaN the comparison is false and no rejection happens. -/
def handleTransactionSubmit (st : TxnState) : SubmitOutcome :=
  let bd := stBill st
  if bd.subtotal = 0 ∨ bd.subtotal ≤ 0 then .rejected
  else if jsLt st.inputs.cashGiven bd.cashPayable then .rejected
  else
    let entry := mkHistoryEntry st bd
    if st.isNewCustomer then
      .committed (st.customers ++ [newCustomerOf st bd entry])
        { mobile := targetMobile st,
          customerName := guestName st,
          finalBill := bd.finalBill,
          pointsUsed := bd.pointsUsed,
          pointsEarned := bd.pointsEarned,
          newTotalPoints := bd.pointsEarned,
          deadlineDays := some st.deadlineSettings.bronze }
    else
      .committed (st.customers.map (updateCustomer st bd entry))
        { mobile := targetMobile st,
          customerName := guestName st,
          finalBill := bd.finalBill,
          pointsUsed := bd.pointsUsed,
          pointsEarned := bd.pointsEarned,
          newTotalPoints := newTotalPointsExisting st bd,
          deadlineDays := deadlineDaysExisting st bd }

/-- The ledger invariant of the spec: totalSpent is the sum of the finalBill
values recorded in the history. -/
def consistent (c : Customer) : Prop :=
  c.totalSpent = (c.history.map (fun e => e.finalBill)).sum

/-- All four discount percentages lie in the documented 0 to 100 range. -/
def DiscountSettings.inRange (d : DiscountSettings) : Prop :=
  (0 ≤ d.bronze ∧ d.bronze ≤ 100) ∧ (0 ≤ d.silver ∧ d.silver ≤ 100) ∧
    (0 ≤ d.gold ∧ d.gold ≤ 100) ∧ (0 ≤ d.platinum ∧ d.platinum ≤ 100)

instance (d : DiscountSettings) : Decidable d.inRange := by
  unfold DiscountSettings.inRange
  infer_instance

/-- Sample data used by the witness theorems. -/
def sampleEntry1 : TransactionHistory :=
  { date := 0, bill := 100, discountPercentage := none, finalBill := 100,
    pointsUsed := 0, points := 0 }

/-- A later sample history entry, one day after sampleEntry1. -/
def sampleEntry2 : TransactionHistory :=
  { date := 86400000, bill := 200, discountPercentage := none, finalBill := 200,
    pointsUsed := 0, points := 0 }

/-- Sample tier thresholds: Silver at 1000 spend or 100 points, Gold at 5000
or 500, Platinum at 10000 or 1000. -/
def sampleTierSettings : TierSettings :=
  ⟨⟨0, 0⟩, ⟨1000, 100⟩, ⟨5000, 500⟩, ⟨10000, 1000⟩⟩

/-- Sample per-tier deadlines in days. -/
def sampleDeadlineSettings : DeadlineSettings := ⟨30, 60, 90, 120⟩

/-- Sample per-tier discount percentages. -/
def sampleDiscountSettings : DiscountSettings := ⟨5, 10, 15, 20⟩

/-- A sample existing customer with two history entries, 200 points and a
total spend of 300 equal to the sum of the recorded final bills (Silver by
points under sampleTierSettings). -/
def sampleCustomer : Customer :=
  { mobile := "+911234567890", name := "Asha", pin := "1234", points := 200,
    totalSpent := 300, history := [sampleEntry1, sampleEntry2] }

/-- Eligibility snapshot the transaction form holds for an eligible
existing customer: 3 days since the last entry, Silver deadline 60. -/
def sampleEligibility : EligibilityResult := ⟨true, some 3, some 60, some Tier.Silver⟩

/-- Submit-time state: the existing sampleCustomer pays a 1000 bill with
1000 cash and no redemption. -/
def stExisting : TxnState :=
  { customers := [sampleCustomer],
    countryCode := "+91",
    mobile := "1234567890",
    name := "Asha",
    pin := "1234",
    inputs := ⟨some 1000, some 1000, none, false⟩,
    currentCustomer := some sampleCustomer,
    isNewCustomer := false,
    eligibility := sampleEligibility,
    tierSettings := sampleTierSettings,
    discountSettings := sampleDiscountSettings,
    deadlineSettings := sampleDeadlineSettings,
    now := 388800000 }

/-- Submit-time state: the sampleCustomer is overdue (100 days since the
last transaction against a 90-day deadline, so ineligible), pays a 1000
bill with 1000 cash, redeem flag on with 50 points requested. -/
def stOverdue : TxnState :=
  { customers := [sampleCustomer],
    countryCode := "+91",
    mobile := "1234567890",
    name := "Asha",
    pin := "1234",
    inputs := ⟨some 1000, some 1000, some 50, true⟩,
    currentCustomer := some sampleCustomer,
    isNewCustomer := false,
    eligibility := ⟨false, some 100, some 90, some Tier.Silver⟩,
    tierSettings := sampleTierSettings,
    discountSettings := sampleDiscountSettings,
    deadlineSettings := sampleDeadlineSettings,
    now := 8726400000 }

/-- Submit-time state exercising the unparseable cash field: a new mobile
number, a 100 bill, and a cashGiven input whose parse is NaN. -/
def stNaNCash : TxnState :=
  { customers := [],
    countryCode := "+91",
    mobile := "9876543210",
    name := "Ravi",
    pin := "0000",
    inputs := ⟨some 100, none, none, false⟩,
    currentCustomer := none,
    isNewCustomer := true,
    eligibility := ⟨true, none, none, none⟩,
    tierSettings := sampleTierSettings,
    discountSettings := sampleDiscountSettings,
    deadlineSettings := sampleDeadlineSettings,
    now := 388800000 }

/-- The sampleCustomer record as rewritten by the stExisting transaction. -/
def updatedSample : Customer :=
  { mobile := "+911234567890", name := "Asha", pin := "1234", points := 200,
    totalSpent := 1300,
    history := [sampleEntry1, sampleEntry2, ⟨388800000, 1000, none, 1000, 0, 0⟩] }

/-- The details published by the stExisting transaction. -/
def detExisting : TxnDetails := ⟨"+911234567890", "Asha", 1000, 0, 0, 200, some 57⟩

/-- The sampleCustomer record as rewritten by the stOverdue transaction. -/
def updatedOverdue : Customer :=
  { mobile := "+911234567890", name := "Asha", pin := "1234", points := 200,
    totalSpent := 1300,
    history := [sampleEntry1, sampleEntry2, ⟨8726400000, 1000, none, 1000, 0, 50⟩] }

/-- The details published by the stOverdue transaction. -/
def detOverdue : TxnDetails := ⟨"+911234567890", "Asha", 1000, 50, 50, 200, some 0⟩

/-- The customer record the stNaNCash submission creates. -/
def nanCashCustomer : Customer :=
  { mobile := "+919876543210", name := "Ravi", pin := "0000", points := 0,
    totalSpent := 100, history := [⟨388800000, 100, none, 100, 0, 0⟩] }

/-- The details published by the stNaNCash submission. -/
def detNaNCash : TxnDetails := ⟨"+919876543210", "Ravi", 100, 0, 0, 0, some 30⟩

/-- The keep-the-later-entry reduce of checkDiscountEligibility lands on an
entry carrying the maximum date of the list. -/
theorem lastTransaction_date_eq_max (h : TransactionHistory) (rest : List TransactionHistory) :
    (rest.foldl (fun latest tx => if latest.date < tx.date then tx else latest) h).date =
      maxHistDate h rest := by
  induction rest generalizing h with
  | nil => rfl
  | cons t ts ih =>
    unfold maxHistDate
    simp only [List.foldl_cons]
    have hstep : ((if h.date < t.date then t else h) : TransactionHistory).date =
        Max.max h.date t.date := by
      by_cases hlt : h.date < t.date
      · simp [hlt, max_eq_right (le_of_lt hlt)]
      · simp [hlt, max_eq_left (le_of_not_lt hlt)]
    rw [ih, maxHistDate, hstep]

/-- C8: for every customer and every tier settings value, the effective tier
getCustomerTier dominates both getTierBySpend and getTierByPoints in the
order Bronze < Silver < Gold < Platinum, and is exactly their maximum. -/
theorem effective_tier_is_max (c : Customer) (s : TierSettings) :
    getTierBySpend c s ≤ getCustomerTier c s ∧
    getTierByPoints c s ≤ getCustomerTier c s ∧
    getCustomerTier c s = Tier.max (getTierBySpend c s) (getTierByPoints c s) ∧
    (Tier.Bronze < Tier.Silver ∧ Tier.Silver < Tier.Gold ∧ Tier.Gold < Tier.Platinum) := by
  unfold getTierBySpend getTierByPoints getCustomerTier
  split_ifs <;> first | decide | tauto

/-- C5: on an empty history checkDiscountEligibility returns the record with
eligible true and every other field null; on a nonempty history it returns
the floored whole number of days between the maximum-timestamp entry and
now, the points tier, that tier's deadline, and eligible exactly when the
days do not exceed the deadline. -/
theorem eligibility_spec (c : Customer) (ds : DeadlineSettings) (ts : TierSettings) (now : ℤ) :
    (c.history = [] → checkDiscountEligibility c ds ts now = ⟨true, none, none, none⟩) ∧
    (∀ e es, c.history = e :: es →
      (checkDiscountEligibility c ds ts now).daysSinceLastTxn =
          some ⌊(((now - maxHistDate e es : ℤ) : ℚ) / msPerDay)⌋ ∧
      (checkDiscountEligibility c ds ts now).pointsTier = some (getTierByPoints c ts) ∧
      (checkDiscountEligibility c ds ts now).deadline = some (ds.forTier (getTierByPoints c ts)) ∧
      ((checkDiscountEligibility c ds ts now).eligible = true ↔
        ((⌊(((now - maxHistDate e es : ℤ) : ℚ) / msPerDay)⌋ : ℤ) : ℚ) ≤
          ds.forTier (getTierByPoints c ts))) := by
  constructor
  · intro h
    unfold checkDiscountEligibility
    rw [h]
  · intro e es h
    unfold checkDiscountEligibility
    rw [h]
    simp only [lastTransaction_date_eq_max]
    refine ⟨trivial, trivial, trivial, ?_⟩
    simp

/-- Witness for the eligibility theorem at the sample customer: 3 and a half
days after the latest entry, days-since is 3, the points tier is Silver
with deadline 60, and the customer is eligible. -/
theorem eligibility_spec_witness :
    (checkDiscountEligibility sampleCustomer sampleDeadlineSettings sampleTierSettings
        388800000).daysSinceLastTxn = some 3 ∧
    (checkDiscountEligibility sampleCustomer sampleDeadlineSettings sampleTierSettings
        388800000).pointsTier = some Tier.Silver ∧
    (checkDiscountEligibility sampleCustomer sampleDeadlineSettings sampleTierSettings
        388800000).eligible = true := by
  have h := (eligibility_spec sampleCustomer sampleDeadlineSettings sampleTierSettings
    388800000).2 sampleEntry1 [sampleEntry2] rfl
  obtain ⟨h1, h2, _, h4⟩ := h
  have hmax : maxHistDate sampleEntry1 [sampleEntry2] = 86400000 := by
    simp [maxHistDate, sampleEntry1, sampleEntry2]
  have hf : ⌊(((388800000 - maxHistDate sampleEntry1 [sampleEntry2] : ℤ) : ℚ) / msPerDay)⌋ = 3 := by
    rw [hmax]
    norm_num [msPerDay, Int.floor_eq_iff]
  have htier : getTierByPoints sampleCustomer sampleTierSettings = Tier.Silver := by
    norm_num [getTierByPoints, sampleCustomer, sampleTierSettings]
  refine ⟨?_, ?_, ?_⟩
  · rw [h1, hf]
  · rw [h2, htier]
  · refine h4.mpr ?_
    rw [hf, htier]
    norm_num [DeadlineSettings.forTier, sampleDeadlineSettings]

/-- Each per-tier discount percentage drawn from an in-range settings record
lies between 0 and 100. -/
theorem forTier_inRange (ds : DiscountSettings) (h : ds.inRange) (t : Tier) :
    0 ≤ ds.forTier t ∧ ds.forTier t ≤ 100 := by
  obtain ⟨hb, hs, hg, hp⟩ := h
  cases t <;> simpa [DiscountSettings.forTier]

/-- With a non-negative subtotal and in-range discount settings, the final
bill computed by billDetails lies between 0 and the subtotal. -/
theorem billDetails_finalBill_bounds (inp : BillInputs) (cc : Option Customer)
    (ds : DiscountSettings) (ts : TierSettings) (el : EligibilityResult)
    (h0 : 0 ≤ jsOrZero inp.billAmount) (hds : ds.inRange) :
    0 ≤ (billDetails inp cc ds ts el).finalBill ∧
      (billDetails inp cc ds ts el).finalBill ≤ jsOrZero inp.billAmount := by
  rcases cc with _ | c
  · simp [billDetails, h0]
  · by_cases hcond : (inp.usePointsAndDiscount && el.eligible &&
        decide (jsOrZero inp.billAmount > 0)) = true
    · have hdp := forTier_inRange ds hds (mkTierInfo c ts).effectiveTier
      have hle : jsOrZero inp.billAmount * (ds.forTier (mkTierInfo c ts).effectiveTier / 100) ≤
          jsOrZero inp.billAmount * 1 := by
        apply mul_le_mul_of_nonneg_left _ h0
        linarith [hdp.2]
      have hge : 0 ≤ jsOrZero inp.billAmount * (ds.forTier (mkTierInfo c ts).effectiveTier / 100) := by
        apply mul_nonneg h0
        linarith [hdp.1]
      constructor
      · simp only [billDetails, hcond, if_true]
        linarith
      · simp only [billDetails, hcond, if_true]
        linarith
    · simp [billDetails, hcond, h0]

/-- C2: in billDetails the discount percentage and amount are both zero
unless the redeem flag is on, eligibility holds, a customer is loaded and
the subtotal is positive; when all four hold the percentage is the discount
setting of the customer's effective tier and the amount is subtotal times
percentage divided by one hundred; in every case the final bill is the
subtotal minus the discount amount. -/
theorem billDetails_discount_spec (inp : BillInputs) (cc : Option Customer)
    (ds : DiscountSettings) (ts : TierSettings) (el : EligibilityResult) :
    (¬(inp.usePointsAndDiscount = true ∧ el.eligible = true ∧ cc.isSome = true ∧
        0 < jsOrZero inp.billAmount) →
      (billDetails inp cc ds ts el).discountPercentage = 0 ∧
      (billDetails inp cc ds ts el).discountAmount = 0) ∧
    (∀ c, cc = some c → inp.usePointsAndDiscount = true → el.eligible = true →
        0 < jsOrZero inp.billAmount →
      (billDetails inp cc ds ts el).discountPercentage = ds.forTier (getCustomerTier c ts) ∧
      (billDetails inp cc ds ts el).discountAmount =
        jsOrZero inp.billAmount * (billDetails inp cc ds ts el).discountPercentage / 100) ∧
    (billDetails inp cc ds ts el).finalBill =
      jsOrZero inp.billAmount - (billDetails inp cc ds ts el).discountAmount := by
  rcases cc with _ | c
  · refine ⟨fun _ => ⟨rfl, rfl⟩, fun c h => ?_, rfl⟩
    exact nomatch h
  · refine ⟨?_, ?_, rfl⟩
    · intro hn
      have hcond : (inp.usePointsAndDiscount && el.eligible &&
          decide (jsOrZero inp.billAmount > 0)) = false := by
        rcases Bool.eq_false_or_eq_true inp.usePointsAndDiscount with h1 | h1
        swap
        · simp [h1]
        · rcases Bool.eq_false_or_eq_true el.eligible with h2 | h2
          swap
          · simp [h2]
          · have h3 : ¬(0 < jsOrZero inp.billAmount) := fun h3 => hn ⟨h1, h2, rfl, h3⟩
            simp [h1, h2, h3]
      exact ⟨by simp [billDetails, hcond], by simp [billDetails, hcond]⟩
    · intro c' hc' h1 h2 h3
      injection hc' with e
      subst e
      have hcond : (inp.usePointsAndDiscount && el.eligible &&
          decide (jsOrZero inp.billAmount > 0)) = true := by
        simp [h1, h2, h3]
      refine ⟨?_, ?_⟩
      · simp [billDetails, hcond, mkTierInfo]
      · simp only [billDetails, hcond, if_true]
        ring

/-- C3: in billDetails the points used are zero unless the redeem flag is on
and the loaded customer has positive points, in which case they are the
three-way minimum of the customer's points, the final bill and the requested
points; cash payable is always final bill minus points used; and over the
documented input ranges the points used never exceed the customer's points,
the final bill or the requested points. -/
theorem billDetails_pointsUsed_spec (inp : BillInputs) (cc : Option Customer)
    (ds : DiscountSettings) (ts : TierSettings) (el : EligibilityResult) :
    (¬(inp.usePointsAndDiscount = true ∧ ∃ c, cc = some c ∧ 0 < c.points) →
      (billDetails inp cc ds ts el).pointsUsed = 0) ∧
    (∀ c, cc = some c → inp.usePointsAndDiscount = true → 0 < c.points →
      (billDetails inp cc ds ts el).pointsUsed =
        Min.min c.points (Min.min (billDetails inp cc ds ts el).finalBill
          (jsOrZero inp.pointsToUse))) ∧
    (billDetails inp cc ds ts el).cashPayable =
      (billDetails inp cc ds ts el).finalBill - (billDetails inp cc ds ts el).pointsUsed ∧
    (∀ c, cc = some c → 0 ≤ c.points → 0 ≤ jsOrZero inp.pointsToUse →
        0 ≤ jsOrZero inp.billAmount → ds.inRange →
      (billDetails inp cc ds ts el).pointsUsed ≤ c.points ∧
      (billDetails inp cc ds ts el).pointsUsed ≤ (billDetails inp cc ds ts el).finalBill ∧
      (billDetails inp cc ds ts el).pointsUsed ≤ jsOrZero inp.pointsToUse) := by
  have key : ∀ c, cc = some c →
      ((inp.usePointsAndDiscount && decide (c.points > 0)) = true →
        (billDetails inp cc ds ts el).pointsUsed =
          Min.min c.points (Min.min (billDetails inp cc ds ts el).finalBill
            (jsOrZero inp.pointsToUse))) ∧
      ((inp.usePointsAndDiscount && decide (c.points > 0)) = false →
        (billDetails inp cc ds ts el).pointsUsed = 0) := by
    intro c hc
    subst hc
    constructor
    · intro hcond
      simp only [billDetails, hcond, if_true]
    · intro hcond
      simp only [billDetails, hcond, if_false, Bool.false_eq_true]
  refine ⟨?_, ?_, rfl, ?_⟩
  · intro hn
    rcases cc with _ | c
    · rfl
    · have hcond : (inp.usePointsAndDiscount && decide (c.points > 0)) = false := by
        rcases Bool.eq_false_or_eq_true inp.usePointsAndDiscount with h1 | h1
        swap
        · simp [h1]
        · have h2 : ¬(0 < c.points) := fun h2 => hn ⟨h1, c, rfl, h2⟩
          simp [h1, h2]
      exact ((key c rfl).2 hcond)
  · intro c hc h1 h2
    exact (key c hc).1 (by simp [h1, h2])
  · intro c hc hp hreq hsub hds
    have hfb := billDetails_finalBill_bounds inp cc ds ts el hsub hds
    rcases Bool.eq_false_or_eq_true (inp.usePointsAndDiscount && decide (c.points > 0)) with hcond | hcond
    swap
    · have h0 := (key c hc).2 hcond
      rw [h0]
      exact ⟨hp, hfb.1, hreq⟩
    · have h0 := (key c hc).1 hcond
      rw [h0]
      refine ⟨min_le_left _ _, le_trans (min_le_right _ _) (min_le_left _ _),
        le_trans (min_le_right _ _) (min_le_right _ _)⟩

/-- C4: the points earned computed by billDetails are the larger of zero and
the floor of cash given minus cash payable: always a non-negative whole
number, and zero whenever the cash given does not exceed the cash payable. -/
theorem billDetails_pointsEarned_spec (inp : BillInputs) (cc : Option Customer)
    (ds : DiscountSettings) (ts : TierSettings) (el : EligibilityResult) :
    (billDetails inp cc ds ts el).pointsEarned =
      ((Max.max 0 ⌊jsOrZero inp.cashGiven - (billDetails inp cc ds ts el).cashPayable⌋ : ℤ) : ℚ) ∧
    0 ≤ (billDetails inp cc ds ts el).pointsEarned ∧
    (∃ n : ℕ, (billDetails inp cc ds ts el).pointsEarned = (n : ℚ)) ∧
    (jsOrZero inp.cashGiven ≤ (billDetails inp cc ds ts el).cashPayable →
      (billDetails inp cc ds ts el).pointsEarned = 0) := by
  have he : (billDetails inp cc ds ts el).pointsEarned =
      ((Max.max 0 ⌊jsOrZero inp.cashGiven - (billDetails inp cc ds ts el).cashPayable⌋ : ℤ) : ℚ) := rfl
  refine ⟨he, ?_, ?_, ?_⟩
  · rw [he]
    exact_mod_cast le_max_left (0 : ℤ)
      ⌊jsOrZero inp.cashGiven - (billDetails inp cc ds ts el).cashPayable⌋
  · refine ⟨(Max.max 0 ⌊jsOrZero inp.cashGiven - (billDetails inp cc ds ts el).cashPayable⌋).toNat, ?_⟩
    rw [he]
    exact_mod_cast (Int.toNat_of_nonneg (le_max_left (0 : ℤ)
      ⌊jsOrZero inp.cashGiven - (billDetails inp cc ds ts el).cashPayable⌋)).symm
  · intro hle
    rw [he]
    have hfl : ⌊jsOrZero inp.cashGiven - (billDetails inp cc ds ts el).cashPayable⌋ ≤ 0 := by
      apply Int.floor_nonpos
      linarith
    rw [max_eq_left hfl]
    norm_num

/-- Inverting a committed submit in the new-customer branch: the collection
gained exactly the constructed new customer and the published details are
the constructed ones. -/
theorem submit_inv_new (st : TxnState) (cs : List Customer) (det : TxnDetails)
    (hnew : st.isNewCustomer = true)
    (hc : handleTransactionSubmit st = .committed cs det) :
    cs = st.customers ++ [newCustomerOf st (stBill st) (mkHistoryEntry st (stBill st))] ∧
    det = { mobile := targetMobile st,
            customerName := guestName st,
            finalBill := (stBill st).finalBill,
            pointsUsed := (stBill st).pointsUsed,
            pointsEarned := (stBill st).pointsEarned,
            newTotalPoints := (stBill st).pointsEarned,
            deadlineDays := some st.deadlineSettings.bronze } := by
  simp only [handleTransactionSubmit, hnew, if_true] at hc
  by_cases h1 : ((stBill st).subtotal = 0 ∨ (stBill st).subtotal ≤ 0)
  · rw [if_pos h1] at hc
    exact nomatch hc
  · rw [if_neg h1] at hc
    by_cases h2 : jsLt st.inputs.cashGiven (stBill st).cashPayable = true
    · rw [if_pos h2] at hc
      exact nomatch hc
    · rw [if_neg h2] at hc
      injection hc with h3 h4
      exact ⟨h3.symm, h4.symm⟩

/-- Inverting a committed submit in the existing-customer branch: the
collection is the per-customer map and the published details are the
constructed ones. -/
theorem submit_inv_existing (st : TxnState) (cs : List Customer) (det : TxnDetails)
    (hnew : st.isNewCustomer = false)
    (hc : handleTransactionSubmit st = .committed cs det) :
    cs = st.customers.map (updateCustomer st (stBill st) (mkHistoryEntry st (stBill st))) ∧
    det = { mobile := targetMobile st,
            customerName := guestName st,
            finalBill := (stBill st).finalBill,
            pointsUsed := (stBill st).pointsUsed,
            pointsEarned := (stBill st).pointsEarned,
            newTotalPoints := newTotalPointsExisting st (stBill st),
            deadlineDays := deadlineDaysExisting st (stBill st) } := by
  simp only [handleTransactionSubmit, hnew, Bool.false_eq_true, if_false] at hc
  by_cases h1 : ((stBill st).subtotal = 0 ∨ (stBill st).subtotal ≤ 0)
  · rw [if_pos h1] at hc
    exact nomatch hc
  · rw [if_neg h1] at hc
    by_cases h2 : jsLt st.inputs.cashGiven (stBill st).cashPayable = true
    · rw [if_pos h2] at hc
      exact nomatch hc
    · rw [if_neg h2] at hc
      injection hc with h3 h4
      exact ⟨h3.symm, h4.symm⟩

/-- C1: a committed transaction updates an existing customer by adding the
final bill to totalSpent, moving points by minus pointsUsed plus
pointsEarned, and appending exactly the one new history entry; a new
customer starts with points equal to pointsEarned, totalSpent equal to the
final bill and a one-entry history; and the totalSpent-equals-sum-of-history
invariant is preserved for every customer in the collection. -/
theorem applier_round_trip (st : TxnState) (cs : List Customer) (det : TxnDetails)
    (hc : handleTransactionSubmit st = .committed cs det) :
    (st.isNewCustomer = false →
      ∀ c ∈ st.customers, c.mobile = targetMobile st →
        ∃ c' ∈ cs,
          c'.points = c.points - (stBill st).pointsUsed + (stBill st).pointsEarned ∧
          c'.totalSpent = c.totalSpent + (stBill st).finalBill ∧
          c'.history = c.history ++ [mkHistoryEntry st (stBill st)]) ∧
    (st.isNewCustomer = true →
      ∃ nc, cs = st.customers ++ [nc] ∧
        nc.points = (stBill st).pointsEarned ∧
        nc.totalSpent = (stBill st).finalBill ∧
        nc.history.length = 1 ∧
        nc.history = [mkHistoryEntry st (stBill st)]) ∧
    ((∀ c ∈ st.customers, consistent c) → ∀ c' ∈ cs, consistent c') := by
  cases hnew : st.isNewCustomer with
  | false =>
    obtain ⟨hcs, _⟩ := submit_inv_existing st cs det hnew hc
    subst hcs
    refine ⟨?_, ?_, ?_⟩
    · intro _ c hcmem hcm
      refine ⟨updateCustomer st (stBill st) (mkHistoryEntry st (stBill st)) c,
        List.mem_map_of_mem _ hcmem, ?_⟩
      simp [updateCustomer, hcm]
    · intro h
      exact nomatch h
    · intro hall c' hc'
      obtain ⟨c, hcmem, rfl⟩ := List.mem_map.mp hc'
      unfold updateCustomer
      by_cases hm : c.mobile ≠ targetMobile st
      · rw [if_pos hm]
        exact hall c hcmem
      · rw [if_neg hm]
        have hcons := hall c hcmem
        unfold consistent at hcons ⊢
        simp only [List.map_append, List.sum_append, List.map_cons, List.map_nil,
          List.sum_cons, List.sum_nil]
        rw [hcons]
        simp [mkHistoryEntry]
  | true =>
    obtain ⟨hcs, _⟩ := submit_inv_new st cs det hnew hc
    subst hcs
    refine ⟨?_, ?_, ?_⟩
    · intro h
      exact nomatch h
    · intro _
      exact ⟨newCustomerOf st (stBill st) (mkHistoryEntry st (stBill st)), rfl, rfl, rfl, rfl, rfl⟩
    · intro hall c' hc'
      rcases List.mem_append.mp hc' with hin | hin
      · exact hall c' hin
      · rcases List.mem_singleton.mp hin with rfl
        unfold consistent newCustomerOf mkHistoryEntry
        simp

/-- C10: committing a transaction for an existing customer leaves every
customer with a different mobile key untouched and, for any customer it
rewrites, preserves the mobile, name and pin fields — position by position
across a collection of unchanged length. -/
theorem applier_frame (st : TxnState) (cs : List Customer) (det : TxnDetails)
    (hnew : st.isNewCustomer = false)
    (hc : handleTransactionSubmit st = .committed cs det) :
    cs.length = st.customers.length ∧
    List.Forall₂ (fun c c' =>
      (c.mobile ≠ targetMobile st → c' = c) ∧
      (c'.mobile = c.mobile ∧ c'.name = c.name ∧ c'.pin = c.pin)) st.customers cs := by
  obtain ⟨hcs, _⟩ := submit_inv_existing st cs det hnew hc
  subst hcs
  refine ⟨by simp, ?_⟩
  rw [List.forall₂_map_right_iff, List.forall₂_same]
  intro c _
  unfold updateCustomer
  by_cases hm : c.mobile ≠ targetMobile st
  · rw [if_pos hm]
    exact ⟨fun _ => rfl, rfl, rfl, rfl⟩
  · rw [if_neg hm]
    exact ⟨fun hcontra => absurd hcontra hm, rfl, rfl, rfl⟩

/-- C7: the deadline reported for notification is the Bronze deadline for a
brand-new customer; for an existing customer with prior eligibility data it
is the remaining window max 0 (deadline - daysSinceLastTxn); and for an
existing customer without prior data it is the deadline of the points tier
at the post-transaction balance. -/
theorem applier_deadline_days (st : TxnState) (cs : List Customer) (det : TxnDetails)
    (hc : handleTransactionSubmit st = .committed cs det) :
    (st.isNewCustomer = true → det.deadlineDays = some st.deadlineSettings.bronze) ∧
    (st.isNewCustomer = false →
      (∀ d days, st.eligibility.deadline = some d → st.eligibility.daysSinceLastTxn = some days →
        det.deadlineDays = some (Max.max 0 (d - (days : ℚ)))) ∧
      ((st.eligibility.deadline = none ∨ st.eligibility.daysSinceLastTxn = none) →
        ∀ c, st.currentCustomer = some c →
          det.deadlineDays = some (st.deadlineSettings.forTier
            (getTierByPoints { c with points := det.newTotalPoints } st.tierSettings)))) := by
  cases hnew : st.isNewCustomer with
  | false =>
    obtain ⟨_, hdet⟩ := submit_inv_existing st cs det hnew hc
    subst hdet
    refine ⟨?_, ?_⟩
    · intro h
      exact nomatch h
    intro _
    constructor
    · intro d days hd hdays
      simp only [deadlineDaysExisting, hd, hdays]
    · intro hnone c hcc
      have hmatch : (match st.eligibility.deadline, st.eligibility.daysSinceLastTxn with
          | some d, some days => some (Max.max 0 (d - (days : ℚ)))
          | _, _ =>
            match st.currentCustomer with
            | some c =>
              some (st.deadlineSettings.forTier
                (getTierByPoints { c with points := newTotalPointsExisting st (stBill st) } st.tierSettings))
            | none => none) =
          some (st.deadlineSettings.forTier
            (getTierByPoints { c with points := newTotalPointsExisting st (stBill st) } st.tierSettings)) := by
        rcases hnone with hn | hn <;>
          rcases hd2 : st.eligibility.deadline with _ | d <;>
            rcases hd3 : st.eligibility.daysSinceLastTxn with _ | days <;>
              simp_all [hcc]
      exact hmatch
  | true =>
    obtain ⟨_, hdet⟩ := submit_inv_new st cs det hnew hc
    subst hdet
    exact ⟨fun _ => rfl, fun h => nomatch h⟩

/-- C9: with the redeem flag on but eligibility false, for a loaded existing
customer with positive points, a positive requested points amount and a
positive subtotal, a committed transaction deducts a positive pointsUsed
from the balance while the history entry appended for the same transaction
records pointsUsed 0 and no discount percentage. -/
theorem redeem_ineligible_mismatch (st : TxnState) (cs : List Customer) (det : TxnDetails)
    (c : Customer)
    (hcc : st.currentCustomer = some c)
    (hnew : st.isNewCustomer = false)
    (happly : st.inputs.usePointsAndDiscount = true)
    (hel : st.eligibility.eligible = false)
    (hpts : 0 < c.points)
    (hreq : 0 < jsOrZero st.inputs.pointsToUse)
    (hsub : 0 < jsOrZero st.inputs.billAmount)
    (hc : handleTransactionSubmit st = .committed cs det) :
    0 < (stBill st).pointsUsed ∧
    (mkHistoryEntry st (stBill st)).pointsUsed = 0 ∧
    (mkHistoryEntry st (stBill st)).discountPercentage = none ∧
    ∀ cm ∈ st.customers, cm.mobile = targetMobile st →
      ∃ c' ∈ cs, c'.points = cm.points - (stBill st).pointsUsed + (stBill st).pointsEarned := by
  have hcond2 : (st.inputs.usePointsAndDiscount && decide (c.points > 0)) = true := by
    simp [happly, hpts]
  have hbd : (stBill st).pointsUsed =
      Min.min c.points (Min.min (jsOrZero st.inputs.billAmount) (jsOrZero st.inputs.pointsToUse)) := by
    simp [stBill, billDetails, hcc, hel, hcond2]
  refine ⟨?_, ?_, ?_, ?_⟩
  · rw [hbd]
    exact lt_min hpts (lt_min hsub hreq)
  · simp [mkHistoryEntry, hel]
  · simp [mkHistoryEntry, hel]
  · intro cm hcmem hcm
    obtain ⟨hcs, _⟩ := submit_inv_existing st cs det hnew hc
    subst hcs
    refine ⟨updateCustomer st (stBill st) (mkHistoryEntry st (stBill st)) cm,
      List.mem_map_of_mem _ hcmem, ?_⟩
    simp [updateCustomer, hcm]

/-- Evaluation: the stExisting submission commits, rewriting sampleCustomer
to updatedSample and publishing detExisting. -/
theorem submit_stExisting_eval :
    handleTransactionSubmit stExisting = .committed [updatedSample] detExisting := by
  norm_num [handleTransactionSubmit, stBill, billDetails, stExisting, jsOrZero, jsLt,
    mkHistoryEntry, updateCustomer, targetMobile, guestName, newTotalPointsExisting,
    deadlineDaysExisting, sampleDeadlineSettings, sampleCustomer, sampleEligibility,
    sampleEntry1, sampleEntry2, updatedSample, detExisting]
  exact fun h => absurd h (by decide)

/-- Evaluation: the stOverdue submission commits, rewriting sampleCustomer
to updatedOverdue and publishing detOverdue. -/
theorem submit_stOverdue_eval :
    handleTransactionSubmit stOverdue = .committed [updatedOverdue] detOverdue := by
  norm_num [handleTransactionSubmit, stBill, billDetails, stOverdue, jsOrZero, jsLt,
    mkHistoryEntry, updateCustomer, targetMobile, guestName, newTotalPointsExisting,
    deadlineDaysExisting, sampleDeadlineSettings, sampleCustomer,
    sampleEntry1, sampleEntry2, Int.floor_eq_iff, max_def, min_def,
    updatedOverdue, detOverdue]
  exact fun h => absurd h (by decide)

/-- C6: the failing input for the payment validation.  With the cash field
missing or non-numeric (a NaN parse) and a positive amount payable, the
submit handler does not reject: the comparison NaN less-than cashPayable is
false, so the transaction commits and the customer collection changes. -/
theorem nan_cash_not_rejected :
    (stBill stNaNCash).cashPayable = 100 ∧
    stNaNCash.inputs.cashGiven = none ∧
    handleTransactionSubmit stNaNCash = .committed [nanCashCustomer] detNaNCash ∧
    [nanCashCustomer] ≠ stNaNCash.customers := by
  refine ⟨?_, rfl, ?_, by simp [stNaNCash]⟩
  · norm_num [stBill, billDetails, stNaNCash, jsOrZero]
  · norm_num [handleTransactionSubmit, stBill, billDetails, stNaNCash, jsOrZero, jsLt,
      mkHistoryEntry, newCustomerOf, targetMobile, guestName, sampleDeadlineSettings,
      nanCashCustomer, detNaNCash]
    exact ⟨by decide, fun h => absurd h (by decide)⟩

/-- Witness for the round-trip theorem at stExisting: the rewritten record
shows the points, totalSpent and appended-entry equations, and the
consistency invariant holds for every customer of the new collection. -/
theorem applier_round_trip_witness :
    updatedSample.points =
      sampleCustomer.points - (stBill stExisting).pointsUsed + (stBill stExisting).pointsEarned ∧
    updatedSample.totalSpent = sampleCustomer.totalSpent + (stBill stExisting).finalBill ∧
    updatedSample.history = sampleCustomer.history ++ [mkHistoryEntry stExisting (stBill stExisting)] ∧
    (∀ c' ∈ [updatedSample], consistent c') := by
  have h := applier_round_trip stExisting [updatedSample] detExisting submit_stExisting_eval
  obtain ⟨c', hmem, hfields⟩ := h.1 rfl sampleCustomer (by simp [stExisting]) rfl
  have heq : c' = updatedSample := List.mem_singleton.mp hmem
  subst heq
  refine ⟨hfields.1, hfields.2.1, hfields.2.2, ?_⟩
  refine h.2.2 ?_
  intro c hcmem
  have hceq : c = sampleCustomer := by
    simpa [stExisting] using hcmem
  subst hceq
  norm_num [consistent, sampleCustomer, sampleEntry1, sampleEntry2]

/-- Witness for the deadline theorem at stOverdue: an existing customer 100
days past a 90-day deadline is reported a remaining window of 90 - 100
clamped to 0. -/
theorem applier_deadline_days_witness :
    detOverdue.deadlineDays = some (Max.max 0 ((90 : ℚ) - ((100 : ℤ) : ℚ))) ∧
    detOverdue.deadlineDays = some 0 := by
  have h := (applier_deadline_days stOverdue [updatedOverdue] detOverdue submit_stOverdue_eval).2 rfl
  have h1 := h.1 90 100 rfl rfl
  refine ⟨h1, h1.trans ?_⟩
  norm_num [max_def]

/-- Witness for the redeem-while-ineligible theorem at stOverdue: 50 points
leave the balance while the appended entry records zero points used and no
discount percentage. -/
theorem redeem_ineligible_mismatch_witness :
    0 < (stBill stOverdue).pointsUsed ∧
    (stBill stOverdue).pointsUsed = 50 ∧
    (mkHistoryEntry stOverdue (stBill stOverdue)).pointsUsed = 0 ∧
    (mkHistoryEntry stOverdue (stBill stOverdue)).discountPercentage = none := by
  have h := redeem_ineligible_mismatch stOverdue [updatedOverdue] detOverdue sampleCustomer
    rfl rfl rfl rfl (by norm_num [sampleCustomer]) (by norm_num [stOverdue, jsOrZero])
    (by norm_num [stOverdue, jsOrZero]) submit_stOverdue_eval
  refine ⟨h.1, ?_, h.2.1, h.2.2.1⟩
  norm_num [stBill, billDetails, stOverdue, sampleCustomer, jsOrZero, min_def]

/-- Witness for the frame theorem at stExisting: the one-customer collection
keeps its length and the rewritten record keeps mobile, name and pin. -/
theorem applier_frame_witness :
    [updatedSample].length = stExisting.customers.length ∧
    List.Forall₂ (fun c c' =>
      (c.mobile ≠ targetMobile stExisting → c' = c) ∧
      (c'.mobile = c.mobile ∧ c'.name = c.name ∧ c'.pin = c.pin))
      stExisting.customers [updatedSample] := by
  exact applier_frame stExisting [updatedSample] detExisting rfl submit_stExisting_eval
